import Mathlib

/-!
Shallow embedding of `src/app.py` (grist-custom-forms): a Flask proxy in
front of a Grist tabular store.  Python JSON values are modelled by the
inductive `Value`; each HTTP handler becomes a pure function of the request
data together with the responses of the remote store, and, where a claim
speaks about remote traffic, the number of outbound calls is returned
alongside the response.
-/

/-- Python/JSON values as they appear in request bodies and Grist fields.
Numbers are modelled as integers (the fields this service interprets are
strings, lists and booleans; floats never reach the interpreted paths). -/
inductive Value where
  | vnull : Value
  | vbool : Bool → Value
  | vint : Int → Value
  | vstr : String → Value
  | vlist : List Value → Value
  | vdict : List (String × Value) → Value
deriving Repr

/-- A single quote character, used by the Python `str`/`repr` rendering. -/
def squote : String := String.mk [Char.ofNat 39]

mutual
/-- Python `repr` of a value (string quoting approximated without escape
processing); used by `pyStr` on containers, mirroring `str(value)`. -/
def pyRepr : Value → String
  | .vnull => "None"
  | .vbool true => "True"
  | .vbool false => "False"
  | .vint n => toString n
  | .vstr s => squote ++ s ++ squote
  | .vlist xs => "[" ++ pyReprList xs ++ "]"
  | .vdict kvs => "\x7b" ++ pyReprDict kvs ++ "\x7d"

/-- Comma-separated reprs of list elements. -/
def pyReprList : List Value → String
  | [] => ""
  | [x] => pyRepr x
  | x :: xs => pyRepr x ++ ", " ++ pyReprList xs

/-- Comma-separated reprs of dict entries. -/
def pyReprDict : List (String × Value) → String
  | [] => ""
  | [kv] => squote ++ kv.1 ++ squote ++ ": " ++ pyRepr kv.2
  | kv :: kvs => squote ++ kv.1 ++ squote ++ ": " ++ pyRepr kv.2 ++ ", " ++ pyReprDict kvs
end

/-- Python `str(value)`. -/
def pyStr : Value → String
  | .vstr s => s
  | v => pyRepr v

/-- Python truthiness of a JSON value. -/
def truthy : Value → Bool
  | .vnull => false
  | .vbool b => b
  | .vint n => n != 0
  | .vstr s => s != ""
  | .vlist xs => !xs.isEmpty
  | .vdict kvs => !kvs.isEmpty

/-- Python `a or b` on values (used for `data.get(...) or default`). -/
def pyOrV (a b : Value) : Value := if truthy a then a else b

/-- Python `dict.get(k)` on an association list: first binding wins, `None`
when the key is absent. -/
def dictGet (kvs : List (String × Value)) (k : String) : Value :=
  match kvs.find? (fun kv => kv.1 == k) with
  | some kv => kv.2
  | none => .vnull

/-- Python `dict.get(k, default)`. -/
def dictGetD (kvs : List (String × Value)) (k : String) (d : Value) : Value :=
  match kvs.find? (fun kv => kv.1 == k) with
  | some kv => kv.2
  | none => d

/-- Python `str.strip()`: leading and trailing whitespace removed. -/
def pyStrip (s : String) : String :=
  String.mk (((s.data.dropWhile Char.isWhitespace).reverse.dropWhile Char.isWhitespace).reverse)

/-- Python `str.upper()` (ASCII case mapping, as in the identifiers and codes
this service handles). -/
def pyToUpper (s : String) : String :=
  String.mk (s.data.map Char.toUpper)

/-- Python `str.lower()` (ASCII case mapping). -/
def pyToLower (s : String) : String :=
  String.mk (s.data.map Char.toLower)

/-- Whether `needle` starts `hay` (on character lists). -/
def leadsOf : List Char → List Char → Bool
  | [], _ => true
  | _ :: _, [] => false
  | a :: as, b :: bs => a == b && leadsOf as bs

/-- Whether `needle` occurs as a contiguous run of `hay`. -/
def occursIn (needle : List Char) : List Char → Bool
  | [] => needle.isEmpty
  | b :: bs => leadsOf needle (b :: bs) || occursIn needle bs

/-- Python substring membership `needle in hay`. -/
def strContains (hay needle : String) : Bool :=
  occursIn needle.data hay.data

/-- `normalize_finess` from app.py: `str(value or '').strip().upper()`. -/
def normalize_finess (value : Value) : String :=
  pyToUpper (pyStrip (pyStr (pyOrV value (.vstr ""))))

/-- `normalize_email` from app.py: `str(value or '').strip().lower()`. -/
def normalize_email (value : Value) : String :=
  pyToLower (pyStrip (pyStr (pyOrV value (.vstr ""))))

/-- `_as_bool` from app.py: booleans pass through, `None` is false, anything
else is stringified, trimmed, lowercased and compared against the accepted
truthy spellings. -/
def _as_bool (value : Value) : Bool :=
  match value with
  | .vbool b => b
  | .vnull => false
  | v =>
    let txt := pyToLower (pyStrip (pyStr v))
    txt == "1" || txt == "true" || txt == "vrai" || txt == "oui" || txt == "yes"

/-- One record of the remote table: the Grist row id together with its field
mapping (`rec.get('fields', {})`; a record without a field mapping is the
record with the empty mapping, exactly as the code reads it). -/
structure Rec where
  id : Int
  fields : List (String × Value)
deriving Repr

section WithLoads

-- `json.loads`, abstract: `none` models a parse error (the code catches the
-- exception).  All results below hold for every parser.
variable (loads : String → Option Value)

/-- The `parsed` intermediate of `extract_finess_values`: a JSON string is
parsed (a blank string, or a parse failure, gives `[]`), a list is taken as
is, anything else gives `[]`. -/
def parsedFinessJson (raw : Value) : Value :=
  match raw with
  | .vstr s =>
    if pyStrip s ≠ "" then
      match loads s with
      | some v => v
      | none => .vlist []
    else .vlist []
  | .vlist xs => .vlist xs
  | _ => .vlist []

/-- `extract_finess_values` from app.py: the set of normalized FINESS codes
of a field mapping, from `finess_main` plus the (parsed) `finess_json` list;
empty normalizations are dropped, and a non-dict input gives the empty set. -/
def extract_finess_values (fields : Value) : Finset String :=
  match fields with
  | .vdict kvs =>
    let main := normalize_finess (dictGet kvs "finess_main")
    let values : Finset String := if main ≠ "" then {main} else ∅
    match parsedFinessJson loads (dictGet kvs "finess_json") with
    | .vlist xs =>
      xs.foldl (fun acc item =>
        let v := normalize_finess item
        if v ≠ "" then insert v acc else acc) values
    | _ => values
  | _ => ∅

/-- The per-record loop body of `find_duplicate_finess`, folded over the
fetched records: a record whose normalized uuid equals the (non-empty)
normalized current uuid is skipped, every other record contributes the
intersection of its codes with the submitted ones. -/
def dupFold (cur : String) (finess_values : Finset String) (records : List Rec) : Finset String :=
  records.foldl (fun acc rec =>
    let rec_uuid := normalize_finess (dictGet rec.fields "uuid")
    if cur ≠ "" ∧ rec_uuid = cur then acc
    else acc ∪ (finess_values ∩ extract_finess_values loads (.vdict rec.fields))) ∅

/-- `find_duplicate_finess` from app.py.  `fetchStatus`/`table` stand for the
remote response of `fetch_all_records`; the second component counts the
outbound requests issued (0 on the empty-input short-circuit, 1 otherwise).
`Except.error` is the `RuntimeError` raised on a non-200 fetch. -/
def find_duplicate_finess (fetchStatus : Nat) (table : List Rec)
    (current_uuid : Value) (finess_values : Finset String) :
    Except Unit (Finset String) × Nat :=
  if finess_values = ∅ then (.ok ∅, 0)
  else if fetchStatus ≠ 200 then (.error (), 1)
  else (.ok (dupFold loads (normalize_finess current_uuid) finess_values table), 1)

/-- The environment variables a single form's configuration is read from
(`None` = unset; Python treats an empty string as falsy where it matters). -/
structure FormEnv where
  doc_id : Option String
  table_id : Option String
  key_form : Option String
  key_default : Option String

/-- Python `a or b` where `a` is an optional environment string. -/
def pyOrStr (a b : Option String) : Option String :=
  match a with
  | some s => if s ≠ "" then some s else b
  | none => b

/-- Python falsiness of an optional string (`not config['api_key']`). -/
def optFalsy : Option String → Bool
  | none => true
  | some s => s == ""

/-- The dict returned by `get_form_config`. -/
structure FormConfig where
  doc_id : String
  table_id : String
  api_key : Option String
deriving Repr

/-- `get_form_config` from app.py: `None` when no (truthy) document id is
configured; the table id defaults to "Reponses"; the credential is the
per-form key, else the shared default. -/
def get_form_config (env : FormEnv) : Option FormConfig :=
  match env.doc_id with
  | none => none
  | some d =>
    if d = "" then none
    else some ⟨d, env.table_id.getD "Reponses", pyOrStr env.key_form env.key_default⟩

/-- Python `k in v` for the body check `'fields' not in data`: key membership
for dicts, element equality for lists (only string elements can equal a
string), substring for strings; `none` models the `TypeError` other types
raise. -/
def pyContains (v : Value) (k : String) : Option Bool :=
  match v with
  | .vdict kvs => some (kvs.any (fun kv => kv.1 == k))
  | .vlist xs => some (xs.any (fun x => match x with | .vstr s => s == k | _ => false))
  | .vstr s => some (strContains s k)
  | _ => none

/-- The write `save_record` issues after all checks pass. -/
inductive SaveAction where
  | noWrite : SaveAction
  | patchRow : Int → SaveAction
  | postNew : SaveAction
deriving Repr, DecidableEq

/-- Response of `save_record`: HTTP status, write performed, `duplicates`
list of the 409 body (empty otherwise), and the number of outbound Grist
requests issued. -/
structure SaveOut where
  status : Nat
  action : SaveAction
  duplicates : List String
  remoteCalls : Nat
deriving Repr, DecidableEq

/-- The sorted duplicates list (`sorted(duplicates)`). -/
def sortCodes (s : Finset String) : List String :=
  s.sort (· ≤ ·)

/-- `save_record` from app.py (POST /api/forms/id/record).  Inputs beyond the
resolved config and parsed JSON body are the remote store's responses: the
uuid-filter lookup (`lookupStatus`, `lookupRecs`), the full-table fetch used
by the FINESS check (`fetchStatus`, `table`), and the status of the final
write (`writeStatus`, passed through).  A status-500 result with
`SaveAction.noWrite` also models an unhandled Python exception (non-dict
`data['fields']`, or `in` on a non-container body). -/
def save_record (loads : String → Option Value) (config? : Option FormConfig)
    (body : Option Value) (lookupStatus : Nat) (lookupRecs : List Rec)
    (fetchStatus : Nat) (table : List Rec) (writeStatus : Nat) : SaveOut :=
  match config? with
  | none => ⟨404, .noWrite, [], 0⟩
  | some config =>
    if optFalsy config.api_key then ⟨500, .noWrite, [], 0⟩
    else
      match body with
      | none => ⟨400, .noWrite, [], 0⟩
      | some data =>
        if ¬ truthy data then ⟨400, .noWrite, [], 0⟩
        else
          match pyContains data "fields" with
          | none => ⟨500, .noWrite, [], 0⟩
          | some false => ⟨400, .noWrite, [], 0⟩
          | some true =>
            match data with
            | .vdict dkvs =>
              match dictGet dkvs "fields" with
              | .vdict fkvs =>
                let uuid := dictGet fkvs "uuid"
                if ¬ truthy uuid then ⟨400, .noWrite, [], 0⟩
                else if lookupStatus ≠ 200 then ⟨lookupStatus, .noWrite, [], 1⟩
                else
                  let record_id : Option Int := lookupRecs.head?.map (·.id)
                  let incoming := extract_finess_values loads (.vdict fkvs)
                  match find_duplicate_finess loads fetchStatus table uuid incoming with
                  | (.error _, n) => ⟨500, .noWrite, [], 1 + n⟩
                  | (.ok dups, n) =>
                    if dups ≠ ∅ then ⟨409, .noWrite, sortCodes dups, 1 + n⟩
                    else
                      match record_id with
                      | some rid => ⟨writeStatus, .patchRow rid, [], 2 + n⟩
                      | none => ⟨writeStatus, .postNew, [], 2 + n⟩
              | _ => ⟨500, .noWrite, [], 0⟩
            | _ => ⟨500, .noWrite, [], 0⟩

/-- The normalized non-empty FINESS set built by `check_finess` from the
submitted list. -/
def normSet (xs : List Value) : Finset String :=
  ((xs.map normalize_finess).filter (· ≠ "")).toFinset

/-- Response of `check_finess`: HTTP status, the `duplicates` and
`has_duplicates` body fields, and the number of outbound requests. -/
structure CheckOut where
  status : Nat
  duplicates : List String
  has_duplicates : Bool
  remoteCalls : Nat
deriving Repr, DecidableEq

/-- `check_finess` from app.py (POST /api/forms/id/check-finess).  The body
defaults to the empty dict (`get_json() or {}`); a non-list `finess` value is
a 400; otherwise the duplicate scan runs against the remote table response
(`fetchStatus`, `table`) and the sorted duplicates are returned with
status 200.  A status-500 result models the caught fetch failure (or the
attribute error of a truthy non-dict body). -/
def check_finess (loads : String → Option Value) (config? : Option FormConfig)
    (body : Option Value) (fetchStatus : Nat) (table : List Rec) : CheckOut :=
  match config? with
  | none => ⟨404, [], false, 0⟩
  | some _ =>
    match pyOrV (body.getD .vnull) (.vdict []) with
    | .vdict kvs =>
      let uuid := normalize_finess (dictGet kvs "uuid")
      match pyOrV (dictGet kvs "finess") (.vlist []) with
      | .vlist xs =>
        let finess_values := normSet xs
        match find_duplicate_finess loads fetchStatus table (.vstr uuid) finess_values with
        | (.error _, n) => ⟨500, [], false, n⟩
        | (.ok dups, n) =>
          let duplicates := sortCodes dups
          ⟨200, duplicates, decide (0 < duplicates.length), n⟩
      | _ => ⟨400, [], false, 0⟩
    | _ => ⟨500, [], false, 0⟩

end WithLoads

/-- Response of `recover_by_email`: HTTP status, the returned `uuid` field
(`vnull` on error responses) and the `count` field. -/
structure RecoverOut where
  status : Nat
  uuid : Value
  count : Nat
deriving Repr

/-- Python `max(matches, key=...)` on row ids (`int(r.get('id', 0) or 0)` is
the identity on the integer ids modelled here): the first element whose id is
maximal. -/
def maxById (r : Rec) (rs : List Rec) : Rec :=
  rs.foldl (fun best c => if best.id < c.id then c else best) r

/-- The tail of `recover_by_email` once a match list is in hand: 404 when
empty, else the uuid of the highest-id match and the match count. -/
def recoverFinish (ms : List Rec) : RecoverOut :=
  match ms with
  | [] => ⟨404, .vnull, 0⟩
  | r :: rs =>
    let chosen := maxById r rs
    ⟨200, dictGet chosen.fields "uuid", (r :: rs).length⟩

/-- Phase-1 match filter: records of the exact-filter response that carry a
truthy uuid. -/
def phase1Matches (recs : List Rec) : List Rec :=
  recs.filter (fun rec => truthy (dictGet rec.fields "uuid"))

/-- Phase-2 match filter: records whose normalized stored email equals the
normalized query and that carry a truthy uuid. -/
def phase2Matches (recs : List Rec) (email : String) : List Rec :=
  recs.filter (fun rec =>
    normalize_email (dictGet rec.fields "validateur_email") == email
      && truthy (dictGet rec.fields "uuid"))

/-- `recover_by_email` from app.py (POST /api/forms/id/recover-by-email).
`exactQuery` maps the normalized email to the remote response of the
filtered fetch; `scanStatus`/`scanRecs` are the response of the fallback
full-table fetch.  A status-500 result models the attribute error of a
truthy non-dict body. -/
def recover_by_email (config? : Option FormConfig) (body : Option Value)
    (exactQuery : String → Nat × List Rec)
    (scanStatus : Nat) (scanRecs : List Rec) : RecoverOut :=
  match config? with
  | none => ⟨404, .vnull, 0⟩
  | some _ =>
    match pyOrV (body.getD .vnull) (.vdict []) with
    | .vdict kvs =>
      let email := normalize_email (dictGet kvs "email")
      if email = "" then ⟨400, .vnull, 0⟩
      else
        let resp := exactQuery email
        if resp.1 ≠ 200 then ⟨resp.1, .vnull, 0⟩
        else
          let ms := phase1Matches resp.2
          if ms.isEmpty then
            if scanStatus ≠ 200 then ⟨scanStatus, .vnull, 0⟩
            else recoverFinish (phase2Matches scanRecs email)
          else recoverFinish ms
    | _ => ⟨500, .vnull, 0⟩

/-- The remote store's exact filter on the email column: a record matches
when its stored `validateur_email` is exactly the queried string. -/
def emailFilterRecs (table : List Rec) (email : String) : List Rec :=
  table.filter (fun rec =>
    match dictGet rec.fields "validateur_email" with
    | .vstr s => s == email
    | _ => false)

/-- `recover_by_email` run against one remote table that answers both the
exact-filter query and the fallback scan (both with status 200). -/
def recover_on_table (config? : Option FormConfig) (body : Option Value)
    (table : List Rec) : RecoverOut :=
  recover_by_email config? body (fun email => (200, emailFilterRecs table email)) 200 table

/-- The match set of the two-phase recovery: the uuid-carrying records of the
exact-filter response if any, else the case-insensitive scan matches. -/
def recoverMatches (table : List Rec) (email : String) : List Rec :=
  if (phase1Matches (emailFilterRecs table email)).isEmpty then phase2Matches table email
  else phase1Matches (emailFilterRecs table email)

/-- One projected row of the admin overview. -/
structure AdminRow where
  record_id : Int
  uuid : Value
  es_nom : Value
  departement : Value
  finess_main : Value
  validateur_nom : Value
  validateur_prenom : Value
  validateur_email : Value
  saisie_terminee : Bool
deriving Repr

/-- The stats block of the admin overview body. -/
structure AdminStats where
  total_questionnaires : Nat
  en_cours : Nat
  termines : Nat
deriving Repr, DecidableEq

/-- Response of `admin_overview` (after the auth guard). -/
inductive AdminOut where
  | unknownForm : AdminOut
  | fetchError : AdminOut
  | ok : AdminStats → List AdminRow → AdminOut
deriving Repr

/-- The projection of one record to an admin row (`fields.get(k, '')` for the
display fields, `_as_bool` for the completion flag). -/
def projectRow (rec : Rec) : AdminRow :=
  ⟨rec.id,
   dictGetD rec.fields "uuid" (.vstr ""),
   dictGetD rec.fields "es_nom" (.vstr ""),
   dictGetD rec.fields "es_departement" (.vstr ""),
   dictGetD rec.fields "finess_main" (.vstr ""),
   dictGetD rec.fields "validateur_nom" (.vstr ""),
   dictGetD rec.fields "validateur_prenom" (.vstr ""),
   dictGetD rec.fields "validateur_email" (.vstr ""),
   _as_bool (dictGet rec.fields "saisie_terminee")⟩

/-- The projection loop of `admin_overview`: records with an empty (or
missing) field mapping are skipped (`if not fields: continue`). -/
def projectRows (table : List Rec) : List AdminRow :=
  (table.filter (fun rec => !rec.fields.isEmpty)).map projectRow

/-- Stable insertion of a row into a list sorted by descending record id
(ties keep the existing element first). -/
def insertDesc (r : AdminRow) : List AdminRow → List AdminRow
  | [] => [r]
  | x :: xs => if x.record_id < r.record_id then r :: x :: xs else x :: insertDesc r xs

/-- The stable descending sort by record id (`rows.sort(key=..., reverse=True)`;
`int(r['record_id'] or 0)` is the identity on the integer ids modelled
here). -/
def sortRowsDesc (rows : List AdminRow) : List AdminRow :=
  rows.foldl (fun acc r => insertDesc r acc) []

/-- The lowercased haystack the admin free-text search scans. -/
def searchHaystack (r : AdminRow) : String :=
  pyToLower (String.intercalate " "
    [pyStr r.es_nom, pyStr r.departement, pyStr r.finess_main,
     pyStr r.validateur_nom, pyStr r.validateur_prenom,
     pyStr r.validateur_email, pyStr r.uuid])

/-- The status filter of `admin_overview`: only applied for the two known
status values. -/
def statusFilter (status : String) (rows : List AdminRow) : List AdminRow :=
  if status = "en_cours" ∨ status = "termines" then
    rows.filter (fun r => r.saisie_terminee == decide (status = "termines"))
  else rows

/-- The free-text search filter of `admin_overview` (skipped for an empty
search string). -/
def searchFilter (search : String) (rows : List AdminRow) : List AdminRow :=
  if search ≠ "" then rows.filter (fun r => strContains (searchHaystack r) search)
  else rows

/-- `admin_overview` from app.py (GET /api/forms/id/admin/overview, after
the auth guard): counts are taken over all projected rows, then the rows are
sorted newest-first and narrowed by the status and search parameters.
`searchArg`/`statusArg` are the raw query parameters (absent = ""). -/
def admin_overview (config? : Option FormConfig) (searchArg statusArg : String)
    (fetchStatus : Nat) (table : List Rec) : AdminOut :=
  match config? with
  | none => .unknownForm
  | some _ =>
    if fetchStatus ≠ 200 then .fetchError
    else
      let search := pyToLower (pyStrip searchArg)
      let status := pyToLower (pyStrip (if statusArg = "" then "all" else statusArg))
      let rows := projectRows table
      let total := rows.length
      let termines := rows.countP (·.saisie_terminee)
      let en_cours := total - termines
      .ok ⟨total, en_cours, termines⟩
        (searchFilter search (statusFilter status (sortRowsDesc rows)))

/-- `_require_admin_auth` from app.py: `some 503` when either credential is
unconfigured (unset or empty), `some 401` when the request carries no basic
auth or the supplied pair mismatches, `none` (no denial) otherwise. -/
def _require_admin_auth (username password : Option String)
    (auth : Option (String × String)) : Option Nat :=
  if optFalsy username || optFalsy password then some 503
  else
    match auth with
    | none => some 401
    | some (au, ap) =>
      if au ≠ username.getD "" ∨ ap ≠ password.getD "" then some 401 else none

/-- `admin_required` from app.py: run the guard; on denial return the denial
response, otherwise run the wrapped handler. -/
def admin_required {α : Type} (username password : Option String)
    (auth : Option (String × String)) (handler : α) (deny : Nat → α) : α :=
  match _require_admin_auth username password auth with
  | some code => deny code
  | none => handler

/-- The summary stats of an admin overview response, when it is a success. -/
def statsOf : AdminOut → Option AdminStats
  | .ok stats _ => some stats
  | _ => none

/-! ## Spec-side definitions (for the refinement claim about code extraction) -/

/-- Modelled from the spec's words for the facility-code list field: the
items of the list field, parsed from a JSON string or taken directly as a
list, with malformed (or non-list) JSON treated as empty. -/
def specParsedItems (loads : String → Option Value) (raw : Value) : List Value :=
  match raw with
  | .vstr s =>
    match loads s with
    | some (.vlist xs) => xs
    | _ => []
  | .vlist xs => xs
  | _ => []

/-- Modelled from the spec's words: the facility code set of a field mapping
is the union of the single facility-code field's value and the elements of
the facility-code-list field, each value trimmed and upper-cased, with empty
values dropped. -/
def specFacilityCodeSet (loads : String → Option Value) (fields : Value) : Finset String :=
  match fields with
  | .vdict kvs =>
    (((dictGet kvs "finess_main" :: specParsedItems loads (dictGet kvs "finess_json")).map
        normalize_finess).filter (· ≠ "")).toFinset
  | _ => ∅

/-! ## Helper lemmas -/

lemma mem_extract_foldl (xs : List Value) (base : Finset String) (c : String) :
    c ∈ xs.foldl (fun acc item =>
        let v := normalize_finess item
        if v ≠ "" then insert v acc else acc) base ↔
      c ∈ base ∨ (c ≠ "" ∧ ∃ item ∈ xs, normalize_finess item = c) := by
  induction xs generalizing base with
  | nil => simp
  | cons x xs ih =>
    rw [List.foldl_cons, ih]
    by_cases h : normalize_finess x = ""
    · simp only [h, ne_eq, not_true_eq_false, if_false, List.mem_cons]
      constructor
      · rintro (hb | ⟨hc, i, hi, hv⟩)
        · exact Or.inl hb
        · exact Or.inr ⟨hc, i, Or.inr hi, hv⟩
      · rintro (hb | ⟨hc, i, (rfl | hi), hv⟩)
        · exact Or.inl hb
        · exact absurd (hv ▸ h) hc
        · exact Or.inr ⟨hc, i, hi, hv⟩
    · simp only [h, ne_eq, not_false_eq_true, if_true, Finset.mem_insert, List.mem_cons]
      constructor
      · rintro ((rfl | hb) | ⟨hc, i, hi, hv⟩)
        · exact Or.inr ⟨h, x, Or.inl rfl, rfl⟩
        · exact Or.inl hb
        · exact Or.inr ⟨hc, i, Or.inr hi, hv⟩
      · rintro (hb | ⟨hc, i, (rfl | hi), hv⟩)
        · exact Or.inl (Or.inr hb)
        · exact Or.inl (Or.inl hv.symm)
        · exact Or.inr ⟨hc, i, hi, hv⟩

lemma mem_mainSet (main c : String) :
    c ∈ (if main ≠ "" then ({main} : Finset String) else ∅) ↔ c ≠ "" ∧ main = c := by
  by_cases h : main = ""
  · subst h
    simp only [ne_eq, not_true_eq_false, if_false, Finset.not_mem_empty, false_iff]
    rintro ⟨hc, hm⟩
    exact hc hm.symm
  · simp only [ne_eq, h, not_false_eq_true, if_true, Finset.mem_singleton]
    constructor
    · rintro rfl
      exact ⟨h, rfl⟩
    · exact fun hm => hm.2.symm

lemma mem_extract (loads : String → Option Value) (kvs : List (String × Value)) (c : String) :
    c ∈ extract_finess_values loads (.vdict kvs) ↔
      c ≠ "" ∧ (normalize_finess (dictGet kvs "finess_main") = c ∨
        (∃ xs, parsedFinessJson loads (dictGet kvs "finess_json") = .vlist xs ∧
          ∃ item ∈ xs, normalize_finess item = c)) := by
  rw [extract_finess_values]
  rcases hp : parsedFinessJson loads (dictGet kvs "finess_json") with _ | b | n | s | xs | dkvs <;>
    simp only [hp]
  case vlist =>
    rw [mem_extract_foldl]
    simp only [mem_mainSet, Value.vlist.injEq]
    constructor
    · rintro (⟨hc, hm⟩ | ⟨hc, i, hi, hv⟩)
      · exact ⟨hc, Or.inl hm⟩
      · exact ⟨hc, Or.inr ⟨xs, rfl, i, hi, hv⟩⟩
    · rintro ⟨hc, (hm | ⟨ys, hys, i, hi, hv⟩)⟩
      · exact Or.inl ⟨hc, hm⟩
      · cases hys
        exact Or.inr ⟨hc, i, hi, hv⟩
  all_goals
    simp only [mem_mainSet]
    constructor
    · rintro ⟨hc, hm⟩
      exact ⟨hc, Or.inl hm⟩
    · rintro ⟨hc, (hm | ⟨ys, hys, -⟩)⟩
      · exact ⟨hc, hm⟩
      · exact absurd hys (by simp)

lemma dictGet_key_present (kvs : List (String × Value)) (k : String)
    (h : dictGet kvs k ≠ .vnull) : kvs.any (fun kv => kv.1 == k) = true := by
  rw [dictGet] at h
  cases hf : kvs.find? (fun kv => kv.1 == k) with
  | none => rw [hf] at h; exact absurd rfl h
  | some kv =>
    have hmem := List.mem_of_find?_eq_some hf
    have hp : (fun kv => kv.1 == k) kv = true :=
      List.find?_some (p := fun kv : String × Value => kv.1 == k) hf
    rw [List.any_eq_true]
    exact ⟨kv, hmem, hp⟩

lemma truthy_of_any (kvs : List (String × Value)) (k : String)
    (h : kvs.any (fun kv => kv.1 == k) = true) : truthy (.vdict kvs) = true := by
  cases kvs with
  | nil => simp at h
  | cons kv kvs => rfl

lemma truthy_of_normalize_ne (v : Value) (h : normalize_finess v ≠ "") : truthy v = true := by
  by_contra hf
  apply h
  rw [Bool.not_eq_true] at hf
  rw [normalize_finess, pyOrV, hf, if_neg Bool.false_ne_true]
  decide

lemma dupFold_go (loads : String → Option Value) (cur : String) (codes : Finset String)
    (table : List Rec) (acc : Finset String) (c : String) :
    c ∈ table.foldl (fun acc rec =>
        let rec_uuid := normalize_finess (dictGet rec.fields "uuid")
        if cur ≠ "" ∧ rec_uuid = cur then acc
        else acc ∪ (codes ∩ extract_finess_values loads (.vdict rec.fields))) acc ↔
      c ∈ acc ∨ ∃ rec ∈ table,
        ¬(cur ≠ "" ∧ normalize_finess (dictGet rec.fields "uuid") = cur) ∧
        c ∈ codes ∧ c ∈ extract_finess_values loads (.vdict rec.fields) := by
  induction table generalizing acc with
  | nil => simp
  | cons r rs ih =>
    rw [List.foldl_cons, ih]
    by_cases h : cur ≠ "" ∧ normalize_finess (dictGet r.fields "uuid") = cur
    · simp only [if_pos h, List.mem_cons]
      constructor
      · rintro (ha | ⟨rec, hrec, hns, hx⟩)
        · exact Or.inl ha
        · exact Or.inr ⟨rec, Or.inr hrec, hns, hx⟩
      · rintro (ha | ⟨rec, (rfl | hrec), hns, hx⟩)
        · exact Or.inl ha
        · exact absurd h hns
        · exact Or.inr ⟨rec, hrec, hns, hx⟩
    · simp only [if_neg h, Finset.mem_union, Finset.mem_inter, List.mem_cons]
      constructor
      · rintro ((ha | ⟨hc1, hc2⟩) | ⟨rec, hrec, hns, hx⟩)
        · exact Or.inl ha
        · exact Or.inr ⟨r, Or.inl rfl, h, hc1, hc2⟩
        · exact Or.inr ⟨rec, Or.inr hrec, hns, hx⟩
      · rintro (ha | ⟨rec, (rfl | hrec), hns, hx⟩)
        · exact Or.inl (Or.inl ha)
        · exact Or.inl (Or.inr ⟨hx.1, hx.2⟩)
        · exact Or.inr ⟨rec, hrec, hns, hx⟩

lemma mem_dupFold (loads : String → Option Value) (cur : String) (codes : Finset String)
    (table : List Rec) (c : String) :
    c ∈ dupFold loads cur codes table ↔
      ∃ rec ∈ table,
        ¬(cur ≠ "" ∧ normalize_finess (dictGet rec.fields "uuid") = cur) ∧
        c ∈ codes ∧ c ∈ extract_finess_values loads (.vdict rec.fields) := by
  rw [dupFold, dupFold_go]
  simp

lemma save_record_checked (loads : String → Option Value) (config : FormConfig)
    (dkvs fkvs : List (String × Value)) (lookupRecs table : List Rec) (writeStatus : Nat)
    (hkey : optFalsy config.api_key = false)
    (hfields : dictGet dkvs "fields" = .vdict fkvs)
    (huuid : truthy (dictGet fkvs "uuid") = true) :
    save_record loads (some config) (some (.vdict dkvs)) 200 lookupRecs 200 table writeStatus =
      match find_duplicate_finess loads 200 table (dictGet fkvs "uuid")
          (extract_finess_values loads (.vdict fkvs)) with
      | (.error _, n) => ⟨500, .noWrite, [], 1 + n⟩
      | (.ok dups, n) =>
        if dups ≠ ∅ then ⟨409, .noWrite, sortCodes dups, 1 + n⟩
        else
          match lookupRecs.head?.map (·.id) with
          | some rid => ⟨writeStatus, .patchRow rid, [], 2 + n⟩
          | none => ⟨writeStatus, .postNew, [], 2 + n⟩ := by
  have hany : dkvs.any (fun kv => kv.1 == "fields") = true :=
    dictGet_key_present _ _ (by rw [hfields]; exact fun h => Value.noConfusion h)
  have htr : truthy (.vdict dkvs) = true := truthy_of_any _ _ hany
  simp [save_record, hkey, htr, pyContains, hany, hfields, huuid]

lemma parsedFinessJson_spec (loads : String → Option Value)
    (hws : ∀ s, pyStrip s = "" → loads s = none) (raw : Value) :
    parsedFinessJson loads raw = .vlist (specParsedItems loads raw) ∨
      ((∀ xs, parsedFinessJson loads raw ≠ .vlist xs) ∧ specParsedItems loads raw = []) := by
  cases raw with
  | vstr s =>
    rw [parsedFinessJson, specParsedItems]
    by_cases ht : pyStrip s = ""
    · rw [if_neg (by simpa using ht), hws s ht]
      exact Or.inl rfl
    · rw [if_pos (by simpa using ht)]
      cases hl : loads s with
      | none => exact Or.inl rfl
      | some v =>
        cases v with
        | vlist xs => exact Or.inl rfl
        | vnull => exact Or.inr ⟨fun xs h => Value.noConfusion h, rfl⟩
        | vbool b => exact Or.inr ⟨fun xs h => Value.noConfusion h, rfl⟩
        | vint n => exact Or.inr ⟨fun xs h => Value.noConfusion h, rfl⟩
        | vstr t => exact Or.inr ⟨fun xs h => Value.noConfusion h, rfl⟩
        | vdict kvs => exact Or.inr ⟨fun xs h => Value.noConfusion h, rfl⟩
  | vlist xs => exact Or.inl rfl
  | vnull => exact Or.inl rfl
  | vbool b => exact Or.inl rfl
  | vint n => exact Or.inl rfl
  | vdict kvs => exact Or.inl rfl

lemma exists_parsed_iff (loads : String → Option Value)
    (hws : ∀ s, pyStrip s = "" → loads s = none) (raw : Value) (c : String) :
    (∃ xs, parsedFinessJson loads raw = .vlist xs ∧ ∃ i ∈ xs, normalize_finess i = c) ↔
      ∃ i ∈ specParsedItems loads raw, normalize_finess i = c := by
  rcases parsedFinessJson_spec loads hws raw with h | ⟨h, hs⟩
  · rw [h]
    simp
  · rw [hs]
    constructor
    · rintro ⟨xs, hxs, -⟩
      exact absurd hxs (h xs)
    · rintro ⟨i, hi, -⟩
      simp at hi

/-- C3: for every field mapping, the extracted facility code set equals the
union of the single facility-code field's value and the elements of the
facility-code-list field (parsed from a JSON string or taken directly as a
list), each value trimmed and upper-cased, with empty values dropped and
malformed JSON treated as empty.  (The hypothesis pins the one fact about
`json.loads` this needs: blank input does not parse.) -/
theorem extract_finess_matches_spec (loads : String → Option Value)
    (hws : ∀ s, pyStrip s = "" → loads s = none) (fields : Value) :
    extract_finess_values loads fields = specFacilityCodeSet loads fields := by
  cases fields with
  | vdict kvs =>
    ext c
    rw [mem_extract, specFacilityCodeSet, exists_parsed_iff loads hws]
    simp only [List.mem_toFinset, List.mem_filter, List.mem_map, List.mem_cons, ne_eq,
      decide_eq_true_eq]
    constructor
    · rintro ⟨hc, (hm | ⟨i, hi, hv⟩)⟩
      · exact ⟨⟨_, Or.inl rfl, hm⟩, hc⟩
      · exact ⟨⟨i, Or.inr hi, hv⟩, hc⟩
    · rintro ⟨⟨i, (rfl | hi), hv⟩, hc⟩
      · exact ⟨hc, Or.inl hv⟩
      · exact ⟨hc, Or.inr ⟨i, hi, hv⟩⟩
  | vnull => rfl
  | vbool b => rfl
  | vint n => rfl
  | vstr s => rfl
  | vlist xs => rfl

/-- Witness for C3 at a concrete parser and field mapping. -/
theorem extract_finess_matches_spec_witness :
    extract_finess_values (fun _ => none)
        (.vdict [("finess_main", .vstr " 750a "), ("finess_json", .vlist [.vstr "x1"])]) =
      specFacilityCodeSet (fun _ => none)
        (.vdict [("finess_main", .vstr " 750a "), ("finess_json", .vlist [.vstr "x1"])]) :=
  extract_finess_matches_spec (fun _ => none) (fun _ _ => rfl) _

/-- C2: with an empty set of normalized codes the duplicate check returns the
empty set without any remote request, and check-finess then responds 200 with
has_duplicates false, an empty duplicates list and zero outbound calls. -/
theorem check_finess_empty_no_remote (loads : String → Option Value)
    (config : FormConfig) (body : Option Value) (kvs : List (String × Value))
    (xs : List Value) (fetchStatus : Nat) (table : List Rec)
    (hbody : pyOrV (body.getD .vnull) (.vdict []) = .vdict kvs)
    (hfin : pyOrV (dictGet kvs "finess") (.vlist []) = .vlist xs)
    (hempty : normSet xs = ∅) :
    check_finess loads (some config) body fetchStatus table = ⟨200, [], false, 0⟩ ∧
    ∀ (current : Value) (fs : Nat) (t : List Rec),
      find_duplicate_finess loads fs t current ∅ = (.ok ∅, 0) := by
  constructor
  · simp [check_finess, hbody, hfin, hempty, find_duplicate_finess, sortCodes]
  · intro current fs t
    simp [find_duplicate_finess]

/-- Witness for C2: a concrete empty-codes check against a non-empty table. -/
theorem check_finess_empty_no_remote_witness :
    check_finess (fun _ => none) (some ⟨"doc", "Reponses", some "key"⟩)
        (some (.vdict [("uuid", .vstr "u1")])) 200
        [⟨1, [("uuid", .vstr "u2"), ("finess_main", .vstr "750000001")]⟩] =
      ⟨200, [], false, 0⟩ :=
  (check_finess_empty_no_remote (fun _ => none) ⟨"doc", "Reponses", some "key"⟩
    (some (.vdict [("uuid", .vstr "u1")])) [("uuid", .vstr "u1")] [] 200
    [⟨1, [("uuid", .vstr "u2"), ("finess_main", .vstr "750000001")]⟩] rfl rfl rfl).1

/-- C1: the FINESS duplicate check excludes the record whose (normalized)
uuid equals the saved record's, so a record never conflicts with its own
codes; but if a record with a different uuid holds one of the submitted
codes, the save returns 409 with that code in the duplicates list. -/
theorem save_conflict_and_self_exclusion (loads : String → Option Value)
    (config : FormConfig) (dkvs fkvs : List (String × Value))
    (lookupRecs table : List Rec) (writeStatus : Nat)
    (hkey : optFalsy config.api_key = false)
    (hfields : dictGet dkvs "fields" = .vdict fkvs)
    (hcur : normalize_finess (dictGet fkvs "uuid") ≠ "") :
    (∀ rec ∈ table, ∀ c,
        normalize_finess (dictGet rec.fields "uuid") ≠ normalize_finess (dictGet fkvs "uuid") →
        c ∈ extract_finess_values loads (.vdict fkvs) →
        c ∈ extract_finess_values loads (.vdict rec.fields) →
        (save_record loads (some config) (some (.vdict dkvs)) 200 lookupRecs 200 table
            writeStatus).status = 409 ∧
        c ∈ (save_record loads (some config) (some (.vdict dkvs)) 200 lookupRecs 200 table
            writeStatus).duplicates) ∧
    ((∀ rec ∈ table,
        normalize_finess (dictGet rec.fields "uuid") = normalize_finess (dictGet fkvs "uuid") ∨
        ∀ c ∈ extract_finess_values loads (.vdict fkvs),
          c ∉ extract_finess_values loads (.vdict rec.fields)) →
      (save_record loads (some config) (some (.vdict dkvs)) 200 lookupRecs 200 table
          writeStatus).status = writeStatus ∧
      (save_record loads (some config) (some (.vdict dkvs)) 200 lookupRecs 200 table
          writeStatus).duplicates = [] ∧
      (save_record loads (some config) (some (.vdict dkvs)) 200 lookupRecs 200 table
          writeStatus).action ≠ .noWrite) := by
  have huuid : truthy (dictGet fkvs "uuid") = true := truthy_of_normalize_ne _ hcur
  have hred := save_record_checked loads config dkvs fkvs lookupRecs table writeStatus
    hkey hfields huuid
  constructor
  · intro rec hrec c hne hcin hcrec
    have hnonempty : extract_finess_values loads (.vdict fkvs) ≠ ∅ :=
      Finset.ne_empty_of_mem hcin
    have hfd : find_duplicate_finess loads 200 table (dictGet fkvs "uuid")
        (extract_finess_values loads (.vdict fkvs)) =
        (.ok (dupFold loads (normalize_finess (dictGet fkvs "uuid"))
          (extract_finess_values loads (.vdict fkvs)) table), 1) := by
      rw [find_duplicate_finess, if_neg hnonempty, if_neg (by simp)]
    have hcd : c ∈ dupFold loads (normalize_finess (dictGet fkvs "uuid"))
        (extract_finess_values loads (.vdict fkvs)) table := by
      rw [mem_dupFold]
      exact ⟨rec, hrec, fun h => hne h.2, hcin, hcrec⟩
    have hdne : dupFold loads (normalize_finess (dictGet fkvs "uuid"))
        (extract_finess_values loads (.vdict fkvs)) table ≠ ∅ :=
      Finset.ne_empty_of_mem hcd
    rw [hred, hfd]
    simp only [if_pos hdne]
    exact ⟨by simp, by rw [sortCodes, Finset.mem_sort]; exact hcd⟩
  · intro hexcl
    rw [hred]
    by_cases hinc : extract_finess_values loads (.vdict fkvs) = ∅
    · rw [find_duplicate_finess, if_pos hinc]
      simp only [ne_eq, not_true_eq_false, if_false]
      cases lookupRecs <;> simp
    · have hzero : dupFold loads (normalize_finess (dictGet fkvs "uuid"))
          (extract_finess_values loads (.vdict fkvs)) table = ∅ := by
        rw [Finset.eq_empty_iff_forall_not_mem]
        intro c hc
        rw [mem_dupFold] at hc
        obtain ⟨rec, hrec, hns, hcin, hcrec⟩ := hc
        rcases hexcl rec hrec with heq | hdisj
        · exact hns ⟨hcur, heq⟩
        · exact hdisj c hcin hcrec
      rw [find_duplicate_finess, if_neg hinc, if_neg (by simp)]
      simp only [hzero, ne_eq, not_true_eq_false, if_false]
      cases lookupRecs <;> simp

/-- Witness for C1: a concrete conflicting save (different uuid, shared code)
returns 409 listing the code. -/
theorem save_conflict_and_self_exclusion_witness :
    (save_record (fun _ => none) (some ⟨"doc", "Reponses", some "key"⟩)
        (some (.vdict [("fields", .vdict [("uuid", .vstr "u1"), ("finess_main", .vstr "750000001")])]))
        200 [] 200 [⟨1, [("uuid", .vstr "u2"), ("finess_main", .vstr "750000001")]⟩]
        200).status = 409 ∧
    "750000001" ∈ (save_record (fun _ => none) (some ⟨"doc", "Reponses", some "key"⟩)
        (some (.vdict [("fields", .vdict [("uuid", .vstr "u1"), ("finess_main", .vstr "750000001")])]))
        200 [] 200 [⟨1, [("uuid", .vstr "u2"), ("finess_main", .vstr "750000001")]⟩]
        200).duplicates :=
  (save_conflict_and_self_exclusion (fun _ => none) ⟨"doc", "Reponses", some "key"⟩
      [("fields", .vdict [("uuid", .vstr "u1"), ("finess_main", .vstr "750000001")])]
      [("uuid", .vstr "u1"), ("finess_main", .vstr "750000001")]
      [] [⟨1, [("uuid", .vstr "u2"), ("finess_main", .vstr "750000001")]⟩] 200
      rfl rfl (by decide)).1
    ⟨1, [("uuid", .vstr "u2"), ("finess_main", .vstr "750000001")]⟩ (by simp)
    "750000001" (by decide) (by decide) (by decide)

/-- C4: a save whose code set is disjoint from every other record's code set
succeeds with the remote write's status and issues a PATCH with the existing
row id when the uuid lookup found a prior row, and a POST otherwise. -/
theorem save_disjoint_update_or_insert (loads : String → Option Value)
    (config : FormConfig) (dkvs fkvs : List (String × Value))
    (lookupRecs table : List Rec) (writeStatus : Nat)
    (hkey : optFalsy config.api_key = false)
    (hfields : dictGet dkvs "fields" = .vdict fkvs)
    (hcur : normalize_finess (dictGet fkvs "uuid") ≠ "")
    (hdisj : ∀ rec ∈ table,
        normalize_finess (dictGet rec.fields "uuid") = normalize_finess (dictGet fkvs "uuid") ∨
        ∀ c ∈ extract_finess_values loads (.vdict fkvs),
          c ∉ extract_finess_values loads (.vdict rec.fields)) :
    (save_record loads (some config) (some (.vdict dkvs)) 200 lookupRecs 200 table
        writeStatus).status = writeStatus ∧
    (save_record loads (some config) (some (.vdict dkvs)) 200 lookupRecs 200 table
        writeStatus).duplicates = [] ∧
    (save_record loads (some config) (some (.vdict dkvs)) 200 lookupRecs 200 table
        writeStatus).action =
      (match lookupRecs.head? with
       | some r => SaveAction.patchRow r.id
       | none => SaveAction.postNew) := by
  have huuid : truthy (dictGet fkvs "uuid") = true := truthy_of_normalize_ne _ hcur
  have hred := save_record_checked loads config dkvs fkvs lookupRecs table writeStatus
    hkey hfields huuid
  rw [hred]
  by_cases hinc : extract_finess_values loads (.vdict fkvs) = ∅
  · rw [find_duplicate_finess, if_pos hinc]
    simp only [ne_eq, not_true_eq_false, if_false]
    cases lookupRecs <;> simp
  · have hzero : dupFold loads (normalize_finess (dictGet fkvs "uuid"))
        (extract_finess_values loads (.vdict fkvs)) table = ∅ := by
      rw [Finset.eq_empty_iff_forall_not_mem]
      intro c hc
      rw [mem_dupFold] at hc
      obtain ⟨rec, hrec, hns, hcin, hcrec⟩ := hc
      rcases hdisj rec hrec with heq | hd
      · exact hns ⟨hcur, heq⟩
      · exact hd c hcin hcrec
    rw [find_duplicate_finess, if_neg hinc, if_neg (by simp)]
    simp only [hzero, ne_eq, not_true_eq_false, if_false]
    cases lookupRecs <;> simp

/-- Witness for C4: a concrete save with a prior row patches that row id. -/
theorem save_disjoint_update_or_insert_witness :
    (save_record (fun _ => none) (some ⟨"doc", "Reponses", some "key"⟩)
        (some (.vdict [("fields", .vdict [("uuid", .vstr "u1"), ("finess_main", .vstr "750000001")])]))
        200 [⟨7, [("uuid", .vstr "u1")]⟩] 200
        [⟨7, [("uuid", .vstr "u1"), ("finess_main", .vstr "750000001")]⟩] 200).status = 200 ∧
    (save_record (fun _ => none) (some ⟨"doc", "Reponses", some "key"⟩)
        (some (.vdict [("fields", .vdict [("uuid", .vstr "u1"), ("finess_main", .vstr "750000001")])]))
        200 [⟨7, [("uuid", .vstr "u1")]⟩] 200
        [⟨7, [("uuid", .vstr "u1"), ("finess_main", .vstr "750000001")]⟩] 200).duplicates = [] ∧
    (save_record (fun _ => none) (some ⟨"doc", "Reponses", some "key"⟩)
        (some (.vdict [("fields", .vdict [("uuid", .vstr "u1"), ("finess_main", .vstr "750000001")])]))
        200 [⟨7, [("uuid", .vstr "u1")]⟩] 200
        [⟨7, [("uuid", .vstr "u1"), ("finess_main", .vstr "750000001")]⟩] 200).action =
      .patchRow 7 :=
  save_disjoint_update_or_insert (fun _ => none) ⟨"doc", "Reponses", some "key"⟩
    [("fields", .vdict [("uuid", .vstr "u1"), ("finess_main", .vstr "750000001")])]
    [("uuid", .vstr "u1"), ("finess_main", .vstr "750000001")]
    [⟨7, [("uuid", .vstr "u1")]⟩]
    [⟨7, [("uuid", .vstr "u1"), ("finess_main", .vstr "750000001")]⟩] 200
    rfl rfl (by decide) (by decide)

lemma get_form_config_none (env : FormEnv) (h : optFalsy env.doc_id = true) :
    get_form_config env = none := by
  rw [get_form_config]
  cases hd : env.doc_id with
  | none => rfl
  | some d =>
    have hde : d = "" := by rw [hd, optFalsy] at h; simpa using h
    subst hde
    simp

lemma get_form_config_api_key (env : FormEnv) (config : FormConfig)
    (hc : get_form_config env = some config) :
    config.api_key = pyOrStr env.key_form env.key_default := by
  rw [get_form_config] at hc
  cases hdoc : env.doc_id with
  | none => rw [hdoc] at hc; exact absurd hc (by simp)
  | some d =>
    rw [hdoc] at hc
    dsimp only at hc
    by_cases hde : d = ""
    · rw [if_pos hde] at hc; exact absurd hc (by simp)
    · rw [if_neg hde] at hc
      cases hc
      rfl

lemma pyOrStr_falsy (a b : Option String) (ha : optFalsy a = true) (hb : optFalsy b = true) :
    optFalsy (pyOrStr a b) = true := by
  cases a with
  | none => exact hb
  | some s =>
    rw [optFalsy] at ha
    rw [pyOrStr, if_neg (by simpa using ha)]
    exact hb

/-- C8: a save on a known form with no credential (neither per-form nor
default key) fails 500 with zero remote calls whatever the body is; an
unknown form yields 404; a body that is missing, lacks a fields mapping, or
whose fields lack a truthy uuid yields 400, all before any remote call. -/
theorem save_error_paths (loads : String → Option Value)
    (lookupStatus : Nat) (lookupRecs : List Rec) (fetchStatus : Nat)
    (table : List Rec) (writeStatus : Nat) :
    (∀ (env : FormEnv) (body : Option Value), optFalsy env.doc_id = true →
        save_record loads (get_form_config env) body lookupStatus lookupRecs fetchStatus
          table writeStatus = ⟨404, .noWrite, [], 0⟩) ∧
    (∀ (env : FormEnv) (config : FormConfig) (body : Option Value),
        get_form_config env = some config →
        optFalsy env.key_form = true → optFalsy env.key_default = true →
        save_record loads (some config) body lookupStatus lookupRecs fetchStatus
          table writeStatus = ⟨500, .noWrite, [], 0⟩) ∧
    (∀ config : FormConfig, optFalsy config.api_key = false →
        save_record loads (some config) none lookupStatus lookupRecs fetchStatus
          table writeStatus = ⟨400, .noWrite, [], 0⟩ ∧
        (∀ dkvs : List (String × Value), pyContains (.vdict dkvs) "fields" = some false →
            save_record loads (some config) (some (.vdict dkvs)) lookupStatus lookupRecs
              fetchStatus table writeStatus = ⟨400, .noWrite, [], 0⟩) ∧
        (∀ dkvs fkvs : List (String × Value), dictGet dkvs "fields" = .vdict fkvs →
            truthy (dictGet fkvs "uuid") = false →
            save_record loads (some config) (some (.vdict dkvs)) lookupStatus lookupRecs
              fetchStatus table writeStatus = ⟨400, .noWrite, [], 0⟩)) := by
  refine ⟨?_, ?_, ?_⟩
  · intro env body h
    rw [get_form_config_none env h, save_record]
  · intro env config body hc hf hd
    have hkey : optFalsy config.api_key = true := by
      rw [get_form_config_api_key env config hc]
      exact pyOrStr_falsy _ _ hf hd
    cases body with
    | none => simp [save_record, hkey]
    | some data => simp [save_record, hkey]
  · intro config hkey
    refine ⟨by simp [save_record, hkey], ?_, ?_⟩
    · intro dkvs hcont
      by_cases ht : truthy (.vdict dkvs) = true
      · simp [save_record, hkey, ht, hcont]
      · rw [Bool.not_eq_true] at ht
        simp [save_record, hkey, ht]
    · intro dkvs fkvs hfields huuid
      have hany : dkvs.any (fun kv => kv.1 == "fields") = true :=
        dictGet_key_present _ _ (by rw [hfields]; exact fun h => Value.noConfusion h)
      have htr : truthy (.vdict dkvs) = true := truthy_of_any _ _ hany
      simp [save_record, hkey, htr, pyContains, hany, hfields, huuid]

/-- Witness for C8: the unconfigured-credential 500 at a concrete form and
body, before any remote call. -/
theorem save_error_paths_witness :
    save_record (fun _ => none)
        (some ⟨"doc", "Reponses", none⟩)
        (some (.vdict [("fields", .vdict [("uuid", .vstr "u1")])])) 200 [] 200 [] 200 =
      ⟨500, .noWrite, [], 0⟩ :=
  (save_error_paths (fun _ => none) 200 [] 200 [] 200).2.1
    ⟨some "doc", none, none, none⟩ ⟨"doc", "Reponses", none⟩
    (some (.vdict [("fields", .vdict [("uuid", .vstr "u1")])])) rfl rfl rfl

/-- C7: admin endpoints answer 503 when the admin credentials are
unconfigured (unset or empty), 401 when they are configured but the supplied
basic-auth pair is absent or mismatched, and the protected handler runs
exactly when both match. -/
theorem admin_auth_gate {α : Type} (handler : α) (deny : Nat → α)
    (username password : Option String) (auth : Option (String × String)) :
    (optFalsy username = true ∨ optFalsy password = true →
        admin_required username password auth handler deny = deny 503) ∧
    (optFalsy username = false → optFalsy password = false →
      (auth = none → admin_required username password auth handler deny = deny 401) ∧
      (∀ au ap, auth = some (au, ap) → (au ≠ username.getD "" ∨ ap ≠ password.getD "") →
          admin_required username password auth handler deny = deny 401) ∧
      (∀ au ap, auth = some (au, ap) → au = username.getD "" → ap = password.getD "" →
          admin_required username password auth handler deny = handler)) := by
  constructor
  · intro h
    have hcond : (optFalsy username || optFalsy password) = true := by
      rcases h with h | h <;> simp [h]
    rw [admin_required, _require_admin_auth.eq_def, if_pos (by simpa using hcond)]
  · intro hu hp
    have hcond : ¬((optFalsy username || optFalsy password) = true) := by simp [hu, hp]
    refine ⟨?_, ?_, ?_⟩
    · intro ha
      rw [admin_required, _require_admin_auth.eq_def, if_neg hcond, ha]
    · intro au ap ha hne
      rw [admin_required, _require_admin_auth.eq_def, if_neg hcond, ha]
      dsimp only
      rw [if_pos hne]
    · intro au ap ha h1 h2
      rw [admin_required, _require_admin_auth.eq_def, if_neg hcond, ha]
      dsimp only
      rw [if_neg (by push_neg; exact ⟨h1, h2⟩)]

/-- Witness for C7: matching credentials run the handler. -/
theorem admin_auth_gate_witness :
    admin_required (some "admin") (some "pw") (some ("admin", "pw")) (7 : Nat)
      (fun c => c) = 7 :=
  ((admin_auth_gate (7 : Nat) (fun c => c) (some "admin") (some "pw")
      (some ("admin", "pw"))).2 rfl rfl).2.2 "admin" "pw" rfl rfl rfl

lemma mem_insertDesc (r x : AdminRow) (l : List AdminRow) :
    x ∈ insertDesc r l ↔ x = r ∨ x ∈ l := by
  induction l with
  | nil => simp [insertDesc]
  | cons y ys ih =>
    rw [insertDesc]
    by_cases h : y.record_id < r.record_id
    · simp only [if_pos h, List.mem_cons]
    · simp only [if_neg h, List.mem_cons, ih]
      tauto

lemma mem_sortRowsDesc_go (l acc : List AdminRow) (x : AdminRow) :
    x ∈ l.foldl (fun acc r => insertDesc r acc) acc ↔ x ∈ acc ∨ x ∈ l := by
  induction l generalizing acc with
  | nil => simp
  | cons y ys ih =>
    rw [List.foldl_cons, ih, mem_insertDesc]
    simp only [List.mem_cons]
    tauto

lemma mem_sortRowsDesc (l : List AdminRow) (x : AdminRow) :
    x ∈ sortRowsDesc l ↔ x ∈ l := by
  rw [sortRowsDesc, mem_sortRowsDesc_go]
  simp

lemma mem_of_statusFilter (status : String) (rows : List AdminRow) (x : AdminRow)
    (h : x ∈ statusFilter status rows) : x ∈ rows := by
  rw [statusFilter] at h
  split at h
  · exact (List.mem_filter.mp h).1
  · exact h

lemma mem_of_searchFilter (search : String) (rows : List AdminRow) (x : AdminRow)
    (h : x ∈ searchFilter search rows) : x ∈ rows := by
  rw [searchFilter] at h
  split at h
  · exact (List.mem_filter.mp h).1
  · exact h

/-- C9: a fetched record with an empty (or absent) field mapping is skipped
entirely by the admin overview: it is counted in no stat and appears in no
returned row, so the reported total can be smaller than the remote table's
row count. -/
theorem admin_overview_skips_empty (config : FormConfig) (searchArg statusArg : String)
    (table : List Rec) :
    (∃ stats rows, admin_overview (some config) searchArg statusArg 200 table = .ok stats rows ∧
      stats.total_questionnaires = (table.filter (fun rec => !rec.fields.isEmpty)).length ∧
      ∀ row ∈ rows, ∃ rec ∈ table, rec.fields.isEmpty = false ∧ row = projectRow rec) ∧
    statsOf (admin_overview (some config) "" "" 200 [⟨1, []⟩]) = some ⟨0, 0, 0⟩ ∧
    ([(⟨1, []⟩ : Rec)] : List Rec).length = 1 := by
  refine ⟨?_, rfl, rfl⟩
  have heq : admin_overview (some config) searchArg statusArg 200 table =
      .ok ⟨(projectRows table).length,
           (projectRows table).length - (projectRows table).countP (·.saisie_terminee),
           (projectRows table).countP (·.saisie_terminee)⟩
        (searchFilter (pyToLower (pyStrip searchArg))
          (statusFilter (pyToLower (pyStrip (if statusArg = "" then "all" else statusArg)))
            (sortRowsDesc (projectRows table)))) := by
    rw [admin_overview]
    rw [if_neg (by simp)]
  refine ⟨_, _, heq, ?_, ?_⟩
  · rw [projectRows, List.length_map]
  · intro row hrow
    have h1 := mem_of_searchFilter _ _ _ hrow
    have h2 := mem_of_statusFilter _ _ _ h1
    have h3 := (mem_sortRowsDesc _ _).mp h2
    rw [projectRows] at h3
    obtain ⟨rec, hrec, hproj⟩ := List.mem_map.mp h3
    obtain ⟨hmem, hne⟩ := List.mem_filter.mp hrec
    exact ⟨rec, hmem, by simpa using hne, hproj.symm⟩

lemma sorted_insertDesc (r : AdminRow) (l : List AdminRow)
    (h : List.Sorted (fun a b : AdminRow => b.record_id ≤ a.record_id) l) :
    List.Sorted (fun a b : AdminRow => b.record_id ≤ a.record_id) (insertDesc r l) := by
  induction l with
  | nil => simp [insertDesc]
  | cons y ys ih =>
    rw [List.sorted_cons] at h
    obtain ⟨hy, hys⟩ := h
    by_cases hlt : y.record_id < r.record_id
    · rw [insertDesc, if_pos hlt, List.sorted_cons]
      constructor
      · intro b hb
        rcases List.mem_cons.mp hb with rfl | hb
        · exact le_of_lt hlt
        · exact le_trans (hy b hb) (le_of_lt hlt)
      · rw [List.sorted_cons]
        exact ⟨hy, hys⟩
    · rw [insertDesc, if_neg hlt, List.sorted_cons]
      refine ⟨?_, ih hys⟩
      intro b hb
      rcases (mem_insertDesc r b ys).mp hb with rfl | hb
      · exact le_of_not_lt hlt
      · exact hy b hb

lemma sorted_sortRowsDesc_go (l acc : List AdminRow)
    (hacc : List.Sorted (fun a b : AdminRow => b.record_id ≤ a.record_id) acc) :
    List.Sorted (fun a b : AdminRow => b.record_id ≤ a.record_id)
      (l.foldl (fun acc r => insertDesc r acc) acc) := by
  induction l generalizing acc with
  | nil => exact hacc
  | cons y ys ih =>
    rw [List.foldl_cons]
    exact ih _ (sorted_insertDesc y acc hacc)

lemma sorted_sortRowsDesc (l : List AdminRow) :
    List.Sorted (fun a b : AdminRow => b.record_id ≤ a.record_id) (sortRowsDesc l) := by
  rw [sortRowsDesc]
  exact sorted_sortRowsDesc_go l [] List.sorted_nil

lemma sorted_statusFilter (status : String) (rows : List AdminRow)
    (h : List.Sorted (fun a b : AdminRow => b.record_id ≤ a.record_id) rows) :
    List.Sorted (fun a b : AdminRow => b.record_id ≤ a.record_id)
      (statusFilter status rows) := by
  rw [statusFilter]
  split
  · exact List.Pairwise.sublist (List.filter_sublist rows) h
  · exact h

lemma sorted_searchFilter (search : String) (rows : List AdminRow)
    (h : List.Sorted (fun a b : AdminRow => b.record_id ≤ a.record_id) rows) :
    List.Sorted (fun a b : AdminRow => b.record_id ≤ a.record_id)
      (searchFilter search rows) := by
  rw [searchFilter]
  split
  · exact List.Pairwise.sublist (List.filter_sublist rows) h
  · exact h

lemma admin_overview_eq (config : FormConfig) (searchArg statusArg : String)
    (table : List Rec) :
    admin_overview (some config) searchArg statusArg 200 table =
      .ok ⟨(projectRows table).length,
           (projectRows table).length - (projectRows table).countP (·.saisie_terminee),
           (projectRows table).countP (·.saisie_terminee)⟩
        (searchFilter (pyToLower (pyStrip searchArg))
          (statusFilter (pyToLower (pyStrip (if statusArg = "" then "all" else statusArg)))
            (sortRowsDesc (projectRows table)))) := by
  rw [admin_overview]
  rw [if_neg (by simp)]

/-- C6: the admin overview stats are computed over the full projected set
before any filtering (they do not depend on the search or status
parameters); termines counts the completed rows, en_cours is total minus
termines, and the returned rows are the filtered subset of the projection
sorted descending by remote row id. -/
theorem admin_overview_stats_prefilter (config : FormConfig)
    (searchArg statusArg : String) (table : List Rec) :
    admin_overview (some config) searchArg statusArg 200 table =
      .ok ⟨(projectRows table).length,
           (projectRows table).length - (projectRows table).countP (·.saisie_terminee),
           (projectRows table).countP (·.saisie_terminee)⟩
        (searchFilter (pyToLower (pyStrip searchArg))
          (statusFilter (pyToLower (pyStrip (if statusArg = "" then "all" else statusArg)))
            (sortRowsDesc (projectRows table)))) ∧
    statsOf (admin_overview (some config) searchArg statusArg 200 table) =
      statsOf (admin_overview (some config) "" "all" 200 table) ∧
    ∀ stats rows, admin_overview (some config) searchArg statusArg 200 table = .ok stats rows →
      List.Sorted (fun a b : AdminRow => b.record_id ≤ a.record_id) rows := by
  refine ⟨admin_overview_eq config searchArg statusArg table, ?_, ?_⟩
  · rw [admin_overview_eq config searchArg statusArg table,
      admin_overview_eq config "" "all" table]
    rfl
  · intro stats rows hrows
    rw [admin_overview_eq config searchArg statusArg table] at hrows
    cases hrows
    exact sorted_searchFilter _ _ (sorted_statusFilter _ _ (sorted_sortRowsDesc _))


lemma maxById_cons (r c : Rec) (cs : List Rec) :
    maxById r (c :: cs) = maxById (if r.id < c.id then c else r) cs := rfl

lemma maxById_mem (r : Rec) (rs : List Rec) : maxById r rs ∈ r :: rs := by
  induction rs generalizing r with
  | nil => simp [maxById]
  | cons c cs ih =>
    rw [maxById_cons]
    rcases List.mem_cons.mp (ih (if r.id < c.id then c else r)) with h | h
    · rw [h]
      by_cases hlt : r.id < c.id <;> simp [hlt]
    · exact List.mem_cons.mpr (Or.inr (List.mem_cons.mpr (Or.inr h)))

lemma maxById_ge (r : Rec) (rs : List Rec) :
    ∀ x ∈ r :: rs, x.id ≤ (maxById r rs).id := by
  induction rs generalizing r with
  | nil =>
    intro x hx
    rcases List.mem_cons.mp hx with rfl | h
    · simp [maxById]
    · simp at h
  | cons c cs ih =>
    intro x hx
    rw [maxById_cons]
    have key := ih (if r.id < c.id then c else r)
    rcases List.mem_cons.mp hx with rfl | hx
    · have h1 : x.id ≤ (if x.id < c.id then c else x).id := by
        by_cases hlt : x.id < c.id
        · rw [if_pos hlt]; exact le_of_lt hlt
        · rw [if_neg hlt]
      exact le_trans h1 (key _ (List.mem_cons_self _ _))
    · rcases List.mem_cons.mp hx with rfl | hx
      · have h1 : x.id ≤ (if r.id < x.id then x else r).id := by
          by_cases hlt : r.id < x.id
          · rw [if_pos hlt]
          · rw [if_neg hlt]; exact le_of_not_lt hlt
        exact le_trans h1 (key _ (List.mem_cons_self _ _))
      · exact key _ (List.mem_cons.mpr (Or.inr hx))

lemma pyOrV_vdict (kvs : List (String × Value)) :
    pyOrV (.vdict kvs) (.vdict []) = .vdict kvs := by
  cases kvs <;> rfl

lemma recoverFinish_status (ms : List Rec) (h : ms ≠ []) :
    (recoverFinish ms).status = 200 := by
  cases ms with
  | nil => exact absurd rfl h
  | cons r rs => rfl

/-- C5: recover-by-email works on the normalized (trimmed, lowercased) email;
a record stored with different casing is still found through the fallback
scan; among the phase's matches carrying a truthy uuid the one with the
largest remote row id is chosen and `count` is the total number of matches,
and the request 404s when neither phase matches. -/
theorem recover_by_email_found_max (config : FormConfig)
    (kvs : List (String × Value)) (table : List Rec)
    (he : normalize_email (dictGet kvs "email") ≠ "") :
    recover_on_table (some config) (some (.vdict kvs)) table =
      recoverFinish (recoverMatches table (normalize_email (dictGet kvs "email"))) ∧
    ((∃ rec ∈ table,
        normalize_email (dictGet rec.fields "validateur_email") =
          normalize_email (dictGet kvs "email") ∧
        truthy (dictGet rec.fields "uuid") = true) →
      (recover_on_table (some config) (some (.vdict kvs)) table).status = 200) ∧
    (recoverMatches table (normalize_email (dictGet kvs "email")) = [] →
      recover_on_table (some config) (some (.vdict kvs)) table = ⟨404, .vnull, 0⟩) ∧
    (∀ r rs, recoverMatches table (normalize_email (dictGet kvs "email")) = r :: rs →
      ∃ chosen, chosen ∈ r :: rs ∧ (∀ x ∈ r :: rs, x.id ≤ chosen.id) ∧
        recover_on_table (some config) (some (.vdict kvs)) table =
          ⟨200, dictGet chosen.fields "uuid", (r :: rs).length⟩) := by
  have hrun : recover_on_table (some config) (some (.vdict kvs)) table =
      recoverFinish (recoverMatches table (normalize_email (dictGet kvs "email"))) := by
    rw [recover_on_table, recover_by_email.eq_def]
    simp only [Option.getD_some, pyOrV_vdict]
    rw [if_neg he]
    simp only [ne_eq, not_true_eq_false, if_false]
    rw [recoverMatches]
    by_cases hp : (phase1Matches (emailFilterRecs table (normalize_email (dictGet kvs "email")))).isEmpty
    · rw [if_pos hp, if_pos hp]
    · rw [if_neg hp, if_neg hp]
  refine ⟨hrun, ?_, ?_, ?_⟩
  · rintro ⟨rec, hrec, hmail, huu⟩
    rw [hrun]
    apply recoverFinish_status
    rw [recoverMatches]
    by_cases hp : (phase1Matches (emailFilterRecs table (normalize_email (dictGet kvs "email")))).isEmpty
    · rw [if_pos hp]
      intro hnil
      have : rec ∈ phase2Matches table (normalize_email (dictGet kvs "email")) := by
        rw [phase2Matches, List.mem_filter]
        exact ⟨hrec, by rw [hmail, huu]; simp⟩
      rw [hnil] at this
      simp at this
    · rw [if_neg hp]
      intro hnil
      rw [hnil] at hp
      simp at hp
  · intro h
    rw [hrun, h]
    rfl
  · intro r rs h
    refine ⟨maxById r rs, maxById_mem r rs, maxById_ge r rs, ?_⟩
    rw [hrun, h]
    rfl

/-- Witness for C5: a record stored as "A@B.com" is found when querying
" a@b.com " (normalization plus the fallback scan). -/
theorem recover_by_email_found_max_witness :
    (recover_on_table (some ⟨"doc", "Reponses", some "key"⟩)
        (some (.vdict [("email", .vstr " a@b.com ")]))
        [⟨3, [("uuid", .vstr "u9"), ("validateur_email", .vstr "A@B.com")]⟩]).status = 200 :=
  (recover_by_email_found_max ⟨"doc", "Reponses", some "key"⟩
      [("email", .vstr " a@b.com ")]
      [⟨3, [("uuid", .vstr "u9"), ("validateur_email", .vstr "A@B.com")]⟩]
      (by decide)).2.1
    ⟨⟨3, [("uuid", .vstr "u9"), ("validateur_email", .vstr "A@B.com")]⟩,
      by simp, by decide, by decide⟩

lemma find_dup_empty_cur (loads : String → Option Value) (table : List Rec)
    (current : Value) (codes : Finset String)
    (hcur : normalize_finess current = "") :
    (find_duplicate_finess loads 200 table current codes).1 =
      .ok (codes.filter (fun c =>
        ∃ rec ∈ table, c ∈ extract_finess_values loads (.vdict rec.fields))) := by
  rw [find_duplicate_finess]
  by_cases h : codes = ∅
  · rw [if_pos h, h]
    simp
  · rw [if_neg h, if_neg (by simp), hcur]
    show Except.ok _ = _
    congr 1
    ext c
    rw [mem_dupFold, Finset.mem_filter]
    constructor
    · rintro ⟨rec, hrec, -, hc, hcrec⟩
      exact ⟨hc, rec, hrec, hcrec⟩
    · rintro ⟨hc, rec, hrec, hcrec⟩
      exact ⟨rec, hrec, by simp, hc, hcrec⟩

/-- C10: the current uuid is compared only after FINESS normalization, and an
empty normalized uuid excludes no record: a check-finess request without a
uuid compares the submitted codes against every record of the table,
including any record the caller may be editing. -/
theorem check_finess_no_uuid_scans_all (loads : String → Option Value)
    (config : FormConfig) (body : Option Value) (kvs : List (String × Value))
    (xs : List Value) (table : List Rec)
    (hbody : pyOrV (body.getD .vnull) (.vdict []) = .vdict kvs)
    (hnouuid : dictGet kvs "uuid" = .vnull)
    (hfin : pyOrV (dictGet kvs "finess") (.vlist []) = .vlist xs) :
    (∀ (current : Value) (codes : Finset String), normalize_finess current = "" →
        (find_duplicate_finess loads 200 table current codes).1 =
          .ok (codes.filter (fun c =>
            ∃ rec ∈ table, c ∈ extract_finess_values loads (.vdict rec.fields)))) ∧
    (check_finess loads (some config) body 200 table).duplicates =
      sortCodes ((normSet xs).filter (fun c =>
        ∃ rec ∈ table, c ∈ extract_finess_values loads (.vdict rec.fields))) := by
  refine ⟨fun current codes h => find_dup_empty_cur loads table current codes h, ?_⟩
  simp only [check_finess, hbody, hfin]
  rcases hfd : find_duplicate_finess loads 200 table
      (.vstr (normalize_finess (dictGet kvs "uuid"))) (normSet xs) with ⟨fst, n⟩
  have h1 : fst = .ok ((normSet xs).filter (fun c =>
      ∃ rec ∈ table, c ∈ extract_finess_values loads (.vdict rec.fields))) := by
    have h2 := find_dup_empty_cur loads table
      (.vstr (normalize_finess (dictGet kvs "uuid"))) (normSet xs)
      (by rw [hnouuid]; decide)
    rw [hfd] at h2
    exact h2
  rw [h1]

/-- Witness for C10 at a concrete no-uuid body and one-record table. -/
theorem check_finess_no_uuid_scans_all_witness :
    (check_finess (fun _ => none) (some ⟨"doc", "Reponses", some "key"⟩)
        (some (.vdict [("finess", .vlist [.vstr "750000001"])])) 200
        [⟨1, [("uuid", .vstr "u1"), ("finess_main", .vstr "750000001")]⟩]).duplicates =
      sortCodes ((normSet [.vstr "750000001"]).filter (fun c =>
        ∃ rec ∈ [(⟨1, [("uuid", .vstr "u1"), ("finess_main", .vstr "750000001")]⟩ : Rec)],
          c ∈ extract_finess_values (fun _ => none) (.vdict rec.fields))) :=
  (check_finess_no_uuid_scans_all (fun _ => none) ⟨"doc", "Reponses", some "key"⟩
      (some (.vdict [("finess", .vlist [.vstr "750000001"])]))
      [("finess", .vlist [.vstr "750000001"])] [.vstr "750000001"]
      [⟨1, [("uuid", .vstr "u1"), ("finess_main", .vstr "750000001")]⟩]
      rfl rfl rfl).2

/-- Witness for C9: a one-row table whose record has no fields reports zero
questionnaires. -/
theorem admin_overview_skips_empty_witness :
    statsOf (admin_overview (some ⟨"doc", "Reponses", none⟩) "" "" 200 [⟨1, []⟩]) =
      some ⟨0, 0, 0⟩ :=
  (admin_overview_skips_empty ⟨"doc", "Reponses", none⟩ "" "" []).2.1

/-- Witness for C6: concrete stats agree between a filtered and an unfiltered
request. -/
theorem admin_overview_stats_prefilter_witness :
    statsOf (admin_overview (some ⟨"doc", "Reponses", none⟩) "dupont" "termines" 200
        [⟨1, [("es_nom", .vstr "Alpha"), ("saisie_terminee", .vstr "oui")]⟩]) =
      statsOf (admin_overview (some ⟨"doc", "Reponses", none⟩) "" "all" 200
        [⟨1, [("es_nom", .vstr "Alpha"), ("saisie_terminee", .vstr "oui")]⟩]) :=
  (admin_overview_stats_prefilter ⟨"doc", "Reponses", none⟩ "dupont" "termines"
      [⟨1, [("es_nom", .vstr "Alpha"), ("saisie_terminee", .vstr "oui")]⟩]).2.1
